import Mathlib

/-!
Shallow embedding of `week09/main.py`, the BERT NER training driver.

The driver `main(config)` creates the output directory, loads training data,
builds the model, checks accelerator availability once, runs `config["epoch"]`
training epochs (each epoch iterating all batches: zero_grad, optional cuda
relocation, forward, backward, optimizer step, loss bookkeeping and cadence
logging), logs the epoch mean loss, calls the evaluator per epoch, and finally
saves a checkpoint pairing the model state with the configuration.

External collaborators (model, optimizer, evaluator, data loader, torch, the
filesystem) are abstracted: the per-batch loss is an arbitrary function of the
epoch number and batch index, the optimizer step is an arbitrary function on an
abstract model state, the filesystem is an association list, and observable
effects are recorded as an event trace.  Python exceptions are `Except` errors
carrying the state at the point of failure.
-/

namespace BadouNER

/-- Filesystem entry kinds for the shallow filesystem model. -/
inductive FsEntry where
  | dir
  | file
deriving DecidableEq, Repr

/-- The keys of `Config` that `main` reads, plus opaque extra settings. -/
structure Config where
  model_path : String
  train_data_path : String
  epoch : Nat
  extra : List (String × String)
deriving DecidableEq, Repr

/-- A tensor, abstracted to an identifier plus its device placement flag. -/
structure Tensor where
  tid : Nat
  onCuda : Bool
deriving DecidableEq, Repr

/-- `t.cuda()`: relocate a tensor to the accelerator device. -/
def Tensor.cuda (t : Tensor) : Tensor := { t with onCuda := true }

/-- A batch is a Python dict from field names to tensors. -/
abbrev Batch := List (String × Tensor)

/-- Python dict lookup; `none` models a KeyError. -/
def dictGet (k : String) : Batch → Option Tensor
  | [] => none
  | (k2, v) :: r => if k2 = k then some v else dictGet k r

/-- The Python exceptions the driver can raise. -/
inductive PyErr where
  | keyError (k : String)
  | zeroDivisionError
  | fileExistsError
deriving DecidableEq, Repr

/-- Mean of a list of rationals; `none` models `np.mean([])` = NaN. -/
def npMean (l : List Rat) : Option Rat :=
  if l.isEmpty then none else some (l.sum / (l.length : Rat))

/-- `os.path.join` for a directory and a plain file name. -/
def pathJoin (a b : String) : String := a ++ "/" ++ b

/-- Observable events of a run, in program order. -/
inductive Event where
  | mkdirE (path : String)
  | loadData (path : String)
  | cudaCheck (avail : Bool)
  | modelToCuda
  | modelTrain (epoch : Nat)
  | zeroGrad
  | toCuda
  | forward (input_ids attention_mask labels : Tensor)
  | backward
  | optStep
  | appendLoss (v : Rat)
  | logBatchLoss (v : Rat)
  | logEpochLoss (v : Option Rat)
  | evalCall (epoch : Nat)
  | save (path : String) (model_state : Nat) (cfg : Config)
deriving DecidableEq, Repr

/-- The mutable state threaded through a run. -/
structure St where
  trace : List Event
  fs : List (String × FsEntry)
  modelState : Nat
  trainLoss : List Rat
deriving DecidableEq, Repr

/-- Append one event to the trace. -/
def St.emit (st : St) (e : Event) : St := { st with trace := st.trace ++ [e] }

/-- Filesystem lookup. -/
def fsGet (p : String) : List (String × FsEntry) → Option FsEntry
  | [] => none
  | (q, e) :: r => if q = p then some e else fsGet p r

/-- Lines 23-24: `if not os.path.isdir(path): os.mkdir(path)`.
`os.mkdir` raises FileExistsError when anything already exists at the path. -/
def ensureDir (p : String) (st : St) : Except (PyErr × St) St :=
  if fsGet p st.fs = some FsEntry.dir then .ok st
  else
    match fsGet p st.fs with
    | some _ => .error (.fileExistsError, st)
    | none => .ok { st with fs := (p, FsEntry.dir) :: st.fs,
                            trace := st.trace ++ [Event.mkdirE p] }

/-- Lines 47-53: when `cuda_flag` the batch dict is rebuilt with exactly the
three keys `input_ids`, `attention_mask`, `labels`, each tensor moved by
`.cuda()`; otherwise the batch passes through unchanged. -/
def relocateBatch (cuda_flag : Bool) (batch_data : Batch) (st : St) :
    Except (PyErr × St) (Batch × St) :=
  if cuda_flag then
    match dictGet "input_ids" batch_data with
    | none => .error (.keyError "input_ids", st)
    | some iid =>
      match dictGet "attention_mask" batch_data with
      | none => .error (.keyError "attention_mask", st)
      | some am =>
        match dictGet "labels" batch_data with
        | none => .error (.keyError "labels", st)
        | some lbl =>
          .ok ([("input_ids", iid.cuda), ("attention_mask", am.cuda),
                ("labels", lbl.cuda)], st.emit Event.toCuda)
  else .ok (batch_data, st)

/-- Lines 44-67: one iteration of the inner batch loop.  `nBatches` is
`len(train_data)`, `loss` abstracts the scalar returned by the model forward
pass, `modelStep` abstracts the optimizer update.  The logging-cadence check
`index % int(len(train_data) / 2) == 0` raises ZeroDivisionError when the
divisor is zero. -/
def runBatch (cuda_flag : Bool) (nBatches : Nat) (modelStep : Nat → Nat)
    (loss : Rat) (index : Nat) (batch_data : Batch) (st : St) :
    Except (PyErr × St) St :=
  let st := st.emit Event.zeroGrad
  match relocateBatch cuda_flag batch_data st with
  | .error e => .error e
  | .ok (bd, st) =>
    match dictGet "input_ids" bd with
    | none => .error (.keyError "input_ids", st)
    | some input_ids =>
      match dictGet "attention_mask" bd with
      | none => .error (.keyError "attention_mask", st)
      | some attention_mask =>
        match dictGet "labels" bd with
        | none => .error (.keyError "labels", st)
        | some labels =>
          let st := st.emit (Event.forward input_ids attention_mask labels)
          let st := st.emit Event.backward
          let st := st.emit Event.optStep
          let st := { st with modelState := modelStep st.modelState }
          let st := st.emit (Event.appendLoss loss)
          let st := { st with trainLoss := st.trainLoss ++ [loss] }
          match nBatches / 2 with
          | 0 => .error (.zeroDivisionError, st)
          | d + 1 =>
            if index % (d + 1) = 0 then .ok (st.emit (Event.logBatchLoss loss))
            else .ok st

/-- The `for index, batch_data in enumerate(train_data)` loop. -/
def runBatches (cuda_flag : Bool) (nBatches : Nat) (modelStep : Nat → Nat)
    (lossE : Nat → Rat) : Nat → List Batch → St → Except (PyErr × St) St
  | _, [], st => .ok st
  | index, bd :: rest, st =>
    match runBatch cuda_flag nBatches modelStep (lossE index) index bd st with
    | .error e => .error e
    | .ok st => runBatches cuda_flag nBatches modelStep lossE (index + 1) rest st

/-- Lines 40-70: one epoch body, `epoch` already 1-indexed.  `train_loss` is
rebuilt empty, all batches run, the epoch mean is logged, and then
`evaluator.eval(epoch)` is called. -/
def runEpoch (cuda_flag : Bool) (train_data : List Batch) (modelStep : Nat → Nat)
    (lossVal : Nat → Nat → Rat) (epoch : Nat) (st : St) :
    Except (PyErr × St) St :=
  let st := st.emit (Event.modelTrain epoch)
  let st := { st with trainLoss := [] }
  match runBatches cuda_flag train_data.length modelStep (lossVal epoch) 0
      train_data st with
  | .error e => .error e
  | .ok st =>
    let st := st.emit (Event.logEpochLoss (npMean st.trainLoss))
    .ok (st.emit (Event.evalCall epoch))

/-- Line 39: `for epoch in range(config["epoch"])` with `epoch += 1`,
so epochs are numbered `e, e+1, ...` starting from `e = 1`. -/
def runEpochs (cuda_flag : Bool) (train_data : List Batch) (modelStep : Nat → Nat)
    (lossVal : Nat → Nat → Rat) : Nat → Nat → St → Except (PyErr × St) St
  | _, 0, st => .ok st
  | e, n + 1, st =>
    match runEpoch cuda_flag train_data modelStep lossVal e st with
    | .error err => .error err
    | .ok st => runEpochs cuda_flag train_data modelStep lossVal (e + 1) n st

/-- The initial state of a run. -/
def initSt (fs0 : List (String × FsEntry)) (initModel : Nat) : St :=
  { trace := [], fs := fs0, modelState := initModel, trainLoss := [] }

/-- Lines 21-80: `main(config)`.  `train_data` abstracts what
`load_data(config["train_data_path"], config)` yields, `cuda_available`
abstracts `torch.cuda.is_available()`, `lossVal epoch index` abstracts the
model's scalar loss, `modelStep` the optimizer update, `initModel` the freshly
constructed model state. -/
def main (config : Config) (fs0 : List (String × FsEntry)) (train_data : List Batch)
    (cuda_available : Bool) (lossVal : Nat → Nat → Rat) (modelStep : Nat → Nat)
    (initModel : Nat) : Except (PyErr × St) St :=
  match ensureDir config.model_path (initSt fs0 initModel) with
  | .error e => .error e
  | .ok st =>
    let st := st.emit (Event.loadData config.train_data_path)
    let cuda_flag := cuda_available
    let st := st.emit (Event.cudaCheck cuda_flag)
    let st := if cuda_flag then st.emit Event.modelToCuda else st
    match runEpochs cuda_flag train_data modelStep lossVal 1 config.epoch st with
    | .error e => .error e
    | .ok st =>
      let model_path := pathJoin config.model_path "bert_ner_model.pth"
      .ok (st.emit (Event.save model_path st.modelState config))

/-- Epoch numbers of the evaluator calls in a trace, in order. -/
def evalNums (tr : List Event) : List Nat :=
  tr.filterMap fun e => match e with | .evalCall n => some n | _ => none

/-- The checkpoint-save records in a trace, in order. -/
def saveEvents (tr : List Event) : List (String × Nat × Config) :=
  tr.filterMap fun e => match e with | .save p m c => some (p, m, c) | _ => none

/-- The per-batch loss values appended to `train_loss`, in order. -/
def lossAppends (tr : List Event) : List Rat :=
  tr.filterMap fun e => match e with | .appendLoss v => some v | _ => none

/-- The epoch-mean-loss values logged, in order. -/
def epochLossLogs (tr : List Event) : List (Option Rat) :=
  tr.filterMap fun e => match e with | .logEpochLoss v => some v | _ => none

/-- How many times the accelerator availability was checked. -/
def cudaCheckCount (tr : List Event) : Nat :=
  tr.countP fun e => match e with | .cudaCheck _ => true | _ => false

/-- How many times the model was relocated to the accelerator. -/
def modelToCudaCount (tr : List Event) : Nat :=
  tr.countP fun e => match e with | .modelToCuda => true | _ => false

/-- How many batch-tensor relocations happened. -/
def toCudaCount (tr : List Event) : Nat :=
  tr.countP fun e => match e with | .toCuda => true | _ => false

/-- How many gradient clears happened (one per executed batch body). -/
def zeroGradCount (tr : List Event) : Nat :=
  tr.countP fun e => match e with | .zeroGrad => true | _ => false

/-- Every forward pass in the trace received accelerator-resident tensors. -/
def forwardsOnCuda (tr : List Event) : Bool :=
  tr.all fun e => match e with
    | .forward a b c => a.onCuda && b.onCuda && c.onCuda
    | _ => true

/-- The error of a failed run, if any. -/
def errOf : Except (PyErr × St) St → Option PyErr
  | .error (e, _) => some e
  | .ok _ => none

/-- The final state of a run, whether it completed or aborted. -/
def stOf : Except (PyErr × St) St → St
  | .error (_, s) => s
  | .ok s => s

/-- A host-resident tensor with the given identifier. -/
def demoT (n : Nat) : Tensor := { tid := n, onCuda := false }

/-- A well-formed batch. -/
def demoBatchA : Batch :=
  [("input_ids", demoT 0), ("attention_mask", demoT 1), ("labels", demoT 2)]

/-- Another well-formed batch. -/
def demoBatchB : Batch :=
  [("input_ids", demoT 3), ("attention_mask", demoT 4), ("labels", demoT 5)]

/-- A batch carrying an extra field beyond the three the driver relocates. -/
def demoBatchX : Batch :=
  [("input_ids", demoT 6), ("attention_mask", demoT 7), ("labels", demoT 8),
   ("token_type_ids", demoT 9)]

/-- A configuration with the given epoch count. -/
def demoCfg (n : Nat) : Config :=
  { model_path := "model_output", train_data_path := "ner_data/train",
    epoch := n, extra := [("bert_path", "bert-base-chinese")] }

/-- A filesystem on which the model directory already exists. -/
def demoFs : List (String × FsEntry) := [("model_output", FsEntry.dir)]

/-- A concrete loss schedule. -/
def demoLoss : Nat → Nat → Rat := fun e i => ((2 * e + i : Nat) : Rat)

/-- A concrete optimizer update on the abstract model state. -/
def demoStep : Nat → Nat := fun m => m + 1

/-- A successful `relocateBatch` leaves the state untouched except for the
`toCuda` event in the accelerator case, where the batch is rebuilt with
exactly the three expected keys. -/
theorem relocateBatch_ok (cuda_flag : Bool) (bd bd' : Batch) (st st' : St)
    (h : relocateBatch cuda_flag bd st = .ok (bd', st')) :
    st'.fs = st.fs ∧ st'.trainLoss = st.trainLoss ∧
    st'.modelState = st.modelState ∧
    st'.trace = st.trace ++ (if cuda_flag then [Event.toCuda] else []) ∧
    (cuda_flag = true → ∃ i a l : Tensor,
      bd' = [("input_ids", i.cuda), ("attention_mask", a.cuda),
             ("labels", l.cuda)]) ∧
    (cuda_flag = false → bd' = bd) := by
  cases cuda_flag with
  | false =>
    simp only [relocateBatch, Bool.false_eq_true, if_false, Except.ok.injEq,
      Prod.mk.injEq] at h
    obtain ⟨h1, h2⟩ := h
    subst h1
    subst h2
    simp
  | true =>
    simp only [relocateBatch, if_true] at h
    cases hii : dictGet "input_ids" bd with
    | none => rw [hii] at h; simp at h
    | some iid =>
      rw [hii] at h
      cases ham : dictGet "attention_mask" bd with
      | none => rw [ham] at h; simp at h
      | some am =>
        rw [ham] at h
        cases hlb : dictGet "labels" bd with
        | none => rw [hlb] at h; simp at h
        | some lbl =>
          rw [hlb] at h
          simp only [Except.ok.injEq, Prod.mk.injEq] at h
          obtain ⟨h1, h2⟩ := h
          subst h1
          subst h2
          refine ⟨rfl, rfl, rfl, by simp [St.emit], fun _ => ⟨iid, am, lbl, rfl⟩,
            by simp⟩

/-- A successful `runBatch` appends exactly the per-batch event segment, in
source order: gradient clear, optional relocation, forward, backward,
optimizer step, loss append, optional cadence log. -/
theorem runBatch_shape (cuda_flag : Bool) (nB : Nat) (mS : Nat → Nat)
    (loss : Rat) (index : Nat) (bd : Batch) (st st' : St)
    (h : runBatch cuda_flag nB mS loss index bd st = .ok st') :
    ∃ i a l lp,
      (lp = ([] : List Event) ∨ lp = [Event.logBatchLoss loss]) ∧
      (cuda_flag = true → i.onCuda = true ∧ a.onCuda = true ∧ l.onCuda = true) ∧
      st'.trace = st.trace ++ [Event.zeroGrad] ++
        (if cuda_flag then [Event.toCuda] else []) ++
        [Event.forward i a l, Event.backward, Event.optStep,
         Event.appendLoss loss] ++ lp ∧
      st'.trainLoss = st.trainLoss ++ [loss] ∧
      st'.fs = st.fs ∧ st'.modelState = mS st.modelState := by
  simp only [runBatch] at h
  cases hrel : relocateBatch cuda_flag bd (St.emit st Event.zeroGrad) with
  | error e => rw [hrel] at h; simp at h
  | ok p =>
    obtain ⟨bd1, st1⟩ := p
    rw [hrel] at h
    dsimp only at h
    obtain ⟨hfs1, htl1, hms1, htr1, hcu, hncu⟩ :=
      relocateBatch_ok cuda_flag bd bd1 (St.emit st Event.zeroGrad) st1 hrel
    have hget : ∃ i a l : Tensor,
        dictGet "input_ids" bd1 = some i ∧
        dictGet "attention_mask" bd1 = some a ∧
        dictGet "labels" bd1 = some l ∧
        (cuda_flag = true → i.onCuda = true ∧ a.onCuda = true ∧
          l.onCuda = true) := by
      cases cuda_flag with
      | true =>
        obtain ⟨i, a, l, hbd⟩ := hcu rfl
        subst hbd
        exact ⟨i.cuda, a.cuda, l.cuda, by simp [dictGet], by simp [dictGet],
          by simp [dictGet], fun _ => ⟨rfl, rfl, rfl⟩⟩
      | false =>
        cases hii : dictGet "input_ids" bd1 with
        | none => rw [hii] at h; simp at h
        | some i =>
          cases ham : dictGet "attention_mask" bd1 with
          | none => rw [hii, ham] at h; simp at h
          | some a =>
            cases hlb : dictGet "labels" bd1 with
            | none => rw [hii, ham, hlb] at h; simp at h
            | some l => exact ⟨i, a, l, rfl, rfl, rfl, by simp⟩
    obtain ⟨i, a, l, hii, ham, hlb, honc⟩ := hget
    rw [hii, ham, hlb] at h
    cases hd : nB / 2 with
    | zero => rw [hd] at h; simp at h
    | succ d =>
      rw [hd] at h
      dsimp only at h
      by_cases hmod : index % (d + 1) = 0
      · rw [if_pos hmod] at h
        simp only [Except.ok.injEq] at h
        subst h
        refine ⟨i, a, l, [Event.logBatchLoss loss], Or.inr rfl, honc, ?_, ?_, ?_, ?_⟩
        · simp [St.emit, htr1]
        · simp [St.emit, htl1]
        · simp [St.emit, hfs1]
        · simp [St.emit, hms1]
      · rw [if_neg hmod] at h
        simp only [Except.ok.injEq] at h
        subst h
        refine ⟨i, a, l, [], Or.inl rfl, honc, ?_, ?_, ?_, ?_⟩
        · simp [St.emit, htr1]
        · simp [St.emit, htl1]
        · simp [St.emit, hfs1]
        · simp [St.emit, hms1]

/-- `evalNums` distributes over append. -/
theorem evalNums_append (l1 l2 : List Event) :
    evalNums (l1 ++ l2) = evalNums l1 ++ evalNums l2 :=
  List.filterMap_append l1 l2 _

/-- `saveEvents` distributes over append. -/
theorem saveEvents_append (l1 l2 : List Event) :
    saveEvents (l1 ++ l2) = saveEvents l1 ++ saveEvents l2 :=
  List.filterMap_append l1 l2 _

/-- `lossAppends` distributes over append. -/
theorem lossAppends_append (l1 l2 : List Event) :
    lossAppends (l1 ++ l2) = lossAppends l1 ++ lossAppends l2 :=
  List.filterMap_append l1 l2 _

/-- `epochLossLogs` distributes over append. -/
theorem epochLossLogs_append (l1 l2 : List Event) :
    epochLossLogs (l1 ++ l2) = epochLossLogs l1 ++ epochLossLogs l2 :=
  List.filterMap_append l1 l2 _

/-- `cudaCheckCount` is additive over append. -/
theorem cudaCheckCount_append (l1 l2 : List Event) :
    cudaCheckCount (l1 ++ l2) = cudaCheckCount l1 + cudaCheckCount l2 :=
  List.countP_append _ l1 l2

/-- `modelToCudaCount` is additive over append. -/
theorem modelToCudaCount_append (l1 l2 : List Event) :
    modelToCudaCount (l1 ++ l2) = modelToCudaCount l1 + modelToCudaCount l2 :=
  List.countP_append _ l1 l2

/-- `toCudaCount` is additive over append. -/
theorem toCudaCount_append (l1 l2 : List Event) :
    toCudaCount (l1 ++ l2) = toCudaCount l1 + toCudaCount l2 :=
  List.countP_append _ l1 l2

/-- `zeroGradCount` is additive over append. -/
theorem zeroGradCount_append (l1 l2 : List Event) :
    zeroGradCount (l1 ++ l2) = zeroGradCount l1 + zeroGradCount l2 :=
  List.countP_append _ l1 l2

/-- `forwardsOnCuda` is conjunctive over append. -/
theorem forwardsOnCuda_append (l1 l2 : List Event) :
    forwardsOnCuda (l1 ++ l2) = (forwardsOnCuda l1 && forwardsOnCuda l2) :=
  List.all_append

/-- Aggregate facts about the event segment a successful `runBatch` appends. -/
theorem runBatch_facts (cuda_flag : Bool) (nB : Nat) (mS : Nat → Nat)
    (loss : Rat) (index : Nat) (bd : Batch) (st st' : St)
    (h : runBatch cuda_flag nB mS loss index bd st = .ok st') :
    ∃ seg, st'.trace = st.trace ++ seg ∧
      st'.trainLoss = st.trainLoss ++ [loss] ∧ st'.fs = st.fs ∧
      lossAppends seg = [loss] ∧ evalNums seg = [] ∧ saveEvents seg = [] ∧
      epochLossLogs seg = [] ∧ cudaCheckCount seg = 0 ∧
      modelToCudaCount seg = 0 ∧
      toCudaCount seg = (if cuda_flag then 1 else 0) ∧
      (cuda_flag = true → forwardsOnCuda seg = true) := by
  obtain ⟨i, a, l, lp, hlp, honc, htr, htl, hfs, _⟩ :=
    runBatch_shape cuda_flag nB mS loss index bd st st' h
  refine ⟨[Event.zeroGrad] ++ (if cuda_flag then [Event.toCuda] else []) ++
    [Event.forward i a l, Event.backward, Event.optStep,
     Event.appendLoss loss] ++ lp, by rw [htr]; simp, htl, hfs, ?_⟩
  rcases hlp with hlp | hlp <;> subst hlp <;> cases cuda_flag <;>
    simp [lossAppends, evalNums, saveEvents, epochLossLogs, cudaCheckCount,
      modelToCudaCount, toCudaCount, forwardsOnCuda] <;>
    (obtain ⟨h1, h2, h3⟩ := honc rfl; simp [h1, h2, h3])

/-- Aggregate facts about the event segment a successful `runBatches` appends. -/
theorem runBatches_ok (cuda_flag : Bool) (nB : Nat) (mS : Nat → Nat)
    (lossE : Nat → Rat) :
    ∀ (bs : List Batch) (index : Nat) (st st' : St),
      runBatches cuda_flag nB mS lossE index bs st = .ok st' →
      ∃ seg, st'.trace = st.trace ++ seg ∧
        st'.trainLoss = st.trainLoss ++ lossAppends seg ∧ st'.fs = st.fs ∧
        evalNums seg = [] ∧ saveEvents seg = [] ∧ epochLossLogs seg = [] ∧
        cudaCheckCount seg = 0 ∧ modelToCudaCount seg = 0 ∧
        toCudaCount seg = (if cuda_flag then bs.length else 0) ∧
        (cuda_flag = true → forwardsOnCuda seg = true) := by
  intro bs
  induction bs with
  | nil =>
    intro index st st' h
    simp only [runBatches, Except.ok.injEq] at h
    subst h
    exact ⟨[], by simp, by simp [lossAppends], rfl, rfl, rfl, rfl, rfl, rfl,
      by cases cuda_flag <;> simp [toCudaCount], fun _ => rfl⟩
  | cons bd rest ih =>
    intro index st st' h
    simp only [runBatches] at h
    cases hb : runBatch cuda_flag nB mS (lossE index) index bd st with
    | error e => rw [hb] at h; simp at h
    | ok st1 =>
      rw [hb] at h
      dsimp only at h
      obtain ⟨seg1, htr1, htl1, hfs1, hla1, hev1, hsv1, hel1, hcc1, hmc1,
        htc1, hfc1⟩ := runBatch_facts cuda_flag nB mS (lossE index) index bd
          st st1 hb
      obtain ⟨seg2, htr2, htl2, hfs2, hev2, hsv2, hel2, hcc2, hmc2, htc2,
        hfc2⟩ := ih (index + 1) st1 st' h
      refine ⟨seg1 ++ seg2, ?_, ?_, ?_, ?_, ?_, ?_, ?_, ?_, ?_, ?_⟩
      · rw [htr2, htr1, List.append_assoc]
      · rw [htl2, htl1, lossAppends_append, hla1, List.append_assoc]
      · rw [hfs2, hfs1]
      · rw [evalNums_append, hev1, hev2]; rfl
      · rw [saveEvents_append, hsv1, hsv2]; rfl
      · rw [epochLossLogs_append, hel1, hel2]; rfl
      · rw [cudaCheckCount_append, hcc1, hcc2]
      · rw [modelToCudaCount_append, hmc1, hmc2]
      · rw [toCudaCount_append, htc1, htc2]
        cases cuda_flag <;> simp [Nat.add_comm]
      · intro hc
        rw [forwardsOnCuda_append, hfc1 hc, hfc2 hc]; rfl

/-- Aggregate facts about the event segment a successful `runEpoch` appends:
exactly one evaluator call with this epoch's number, the logged epoch mean is
the mean of the losses appended within the same segment, and the epoch's
`train_loss` list is rebuilt from scratch. -/
theorem runEpoch_ok (cuda_flag : Bool) (td : List Batch) (mS : Nat → Nat)
    (lv : Nat → Nat → Rat) (e : Nat) (st st' : St)
    (h : runEpoch cuda_flag td mS lv e st = .ok st') :
    ∃ seg, st'.trace = st.trace ++ seg ∧ st'.fs = st.fs ∧
      evalNums seg = [e] ∧ saveEvents seg = [] ∧
      cudaCheckCount seg = 0 ∧ modelToCudaCount seg = 0 ∧
      toCudaCount seg = (if cuda_flag then td.length else 0) ∧
      (cuda_flag = true → forwardsOnCuda seg = true) ∧
      epochLossLogs seg = [npMean (lossAppends seg)] ∧
      st'.trainLoss = lossAppends seg := by
  simp only [runEpoch] at h
  cases hb : runBatches cuda_flag td.length mS (lv e) 0 td
      { St.emit st (Event.modelTrain e) with trainLoss := [] } with
  | error err => rw [hb] at h; simp at h
  | ok st1 =>
    rw [hb] at h
    dsimp only at h
    simp only [Except.ok.injEq] at h
    subst h
    obtain ⟨segb, htr1, htl1, hfs1, hev1, hsv1, hel1, hcc1, hmc1, htc1,
      hfc1⟩ := runBatches_ok cuda_flag td.length mS (lv e) td 0 _ st1 hb
    simp only [St.emit] at htr1 htl1 hfs1
    have htl : st1.trainLoss = lossAppends segb := by simpa using htl1
    have hl : lossAppends ([Event.modelTrain e] ++ segb ++
        [Event.logEpochLoss (npMean st1.trainLoss), Event.evalCall e]) =
        lossAppends segb := by
      rw [lossAppends_append, lossAppends_append]
      simp [lossAppends]
    refine ⟨[Event.modelTrain e] ++ segb ++
      [Event.logEpochLoss (npMean st1.trainLoss), Event.evalCall e],
      ?_, ?_, ?_, ?_, ?_, ?_, ?_, ?_, ?_, ?_⟩
    · simp only [St.emit, htr1]
      simp
    · simp only [St.emit, hfs1]
    · rw [evalNums_append, evalNums_append, hev1]
      rfl
    · rw [saveEvents_append, saveEvents_append, hsv1]
      rfl
    · rw [cudaCheckCount_append, cudaCheckCount_append, hcc1]
      rfl
    · rw [modelToCudaCount_append, modelToCudaCount_append, hmc1]
      rfl
    · rw [toCudaCount_append, toCudaCount_append, htc1]
      cases cuda_flag <;> simp [toCudaCount]
    · intro hc
      rw [forwardsOnCuda_append, forwardsOnCuda_append, hfc1 hc]
      rfl
    · rw [hl, epochLossLogs_append, epochLossLogs_append, hel1, htl]
      rfl
    · simp only [St.emit]
      rw [hl]
      exact htl

/-- Aggregate facts about the event segment a successful `runEpochs` appends:
the evaluator is called once per epoch with consecutive epoch numbers. -/
theorem runEpochs_ok (cuda_flag : Bool) (td : List Batch) (mS : Nat → Nat)
    (lv : Nat → Nat → Rat) :
    ∀ (n e : Nat) (st st' : St),
      runEpochs cuda_flag td mS lv e n st = .ok st' →
      ∃ seg, st'.trace = st.trace ++ seg ∧ st'.fs = st.fs ∧
        evalNums seg = List.range' e n ∧ saveEvents seg = [] ∧
        cudaCheckCount seg = 0 ∧ modelToCudaCount seg = 0 ∧
        toCudaCount seg = (if cuda_flag then n * td.length else 0) ∧
        (cuda_flag = true → forwardsOnCuda seg = true) ∧
        (n = 0 → seg = []) := by
  intro n
  induction n with
  | zero =>
    intro e st st' h
    simp only [runEpochs, Except.ok.injEq] at h
    subst h
    exact ⟨[], by simp, rfl, rfl, rfl, rfl, rfl,
      by cases cuda_flag <;> simp [toCudaCount], fun _ => rfl, fun _ => rfl⟩
  | succ n ih =>
    intro e st st' h
    simp only [runEpochs] at h
    cases he : runEpoch cuda_flag td mS lv e st with
    | error err => rw [he] at h; simp at h
    | ok st1 =>
      rw [he] at h
      dsimp only at h
      obtain ⟨seg1, htr1, hfs1, hev1, hsv1, hcc1, hmc1, htc1, hfc1, _, _⟩ :=
        runEpoch_ok cuda_flag td mS lv e st st1 he
      obtain ⟨seg2, htr2, hfs2, hev2, hsv2, hcc2, hmc2, htc2, hfc2, _⟩ :=
        ih (e + 1) st1 st' h
      refine ⟨seg1 ++ seg2, ?_, ?_, ?_, ?_, ?_, ?_, ?_, ?_, ?_⟩
      · rw [htr2, htr1, List.append_assoc]
      · rw [hfs2, hfs1]
      · rw [evalNums_append, hev1, hev2, List.range'_succ]; rfl
      · rw [saveEvents_append, hsv1, hsv2]; rfl
      · rw [cudaCheckCount_append, hcc1, hcc2]
      · rw [modelToCudaCount_append, hmc1, hmc2]
      · rw [toCudaCount_append, htc1, htc2]
        cases cuda_flag <;> simp [Nat.succ_mul, Nat.add_comm]
      · intro hc
        rw [forwardsOnCuda_append, hfc1 hc, hfc2 hc]; rfl
      · intro h0
        exact absurd h0 (Nat.succ_ne_zero n)

/-- A successful `ensureDir` leaves the state unchanged except for possibly
creating the directory. -/
theorem ensureDir_ok (p : String) (st st' : St)
    (h : ensureDir p st = .ok st') :
    ∃ de, (de = ([] : List Event) ∨ de = [Event.mkdirE p]) ∧
      st'.trace = st.trace ++ de ∧ st'.trainLoss = st.trainLoss ∧
      st'.modelState = st.modelState := by
  unfold ensureDir at h
  by_cases hdir : fsGet p st.fs = some FsEntry.dir
  · rw [if_pos hdir] at h
    simp only [Except.ok.injEq] at h
    subst h
    exact ⟨[], Or.inl rfl, by simp, rfl, rfl⟩
  · rw [if_neg hdir] at h
    cases hg : fsGet p st.fs with
    | some entry => rw [hg] at h; simp at h
    | none =>
      rw [hg] at h
      simp only [Except.ok.injEq] at h
      subst h
      exact ⟨[Event.mkdirE p], Or.inr rfl, rfl, rfl, rfl⟩

/-- Full decomposition of the trace of a completed run of `main`:
optional mkdir, data load, a single accelerator check, optional model
relocation, the epoch segment, and the final unconditional checkpoint save. -/
theorem main_ok_decomp (config : Config) (fs0 : List (String × FsEntry))
    (td : List Batch) (cuda : Bool) (lv : Nat → Nat → Rat) (mS : Nat → Nat)
    (im : Nat) (st : St)
    (h : main config fs0 td cuda lv mS im = .ok st) :
    ∃ de seg,
      (de = ([] : List Event) ∨ de = [Event.mkdirE config.model_path]) ∧
      st.trace = de ++ [Event.loadData config.train_data_path,
          Event.cudaCheck cuda] ++
        (if cuda then [Event.modelToCuda] else []) ++ seg ++
        [Event.save (pathJoin config.model_path "bert_ner_model.pth")
          st.modelState config] ∧
      evalNums seg = List.range' 1 config.epoch ∧
      saveEvents seg = [] ∧ cudaCheckCount seg = 0 ∧
      modelToCudaCount seg = 0 ∧
      toCudaCount seg = (if cuda then config.epoch * td.length else 0) ∧
      (cuda = true → forwardsOnCuda seg = true) ∧
      (config.epoch = 0 → seg = []) := by
  simp only [main] at h
  cases hd : ensureDir config.model_path (initSt fs0 im) with
  | error e => rw [hd] at h; simp at h
  | ok st1 =>
    rw [hd] at h
    dsimp only at h
    obtain ⟨de, hde, htr1, _, _⟩ :=
      ensureDir_ok config.model_path (initSt fs0 im) st1 hd
    cases hr : runEpochs cuda td mS lv 1 config.epoch
        (if cuda then
          St.emit (St.emit (St.emit st1 (Event.loadData config.train_data_path))
            (Event.cudaCheck cuda)) Event.modelToCuda
         else
          St.emit (St.emit st1 (Event.loadData config.train_data_path))
            (Event.cudaCheck cuda)) with
    | error e =>
      rw [show (if cuda = true then
          St.emit (St.emit (St.emit st1 (Event.loadData config.train_data_path))
            (Event.cudaCheck cuda)) Event.modelToCuda
         else
          St.emit (St.emit st1 (Event.loadData config.train_data_path))
            (Event.cudaCheck cuda)) =
          (if cuda = true then
          St.emit (St.emit (St.emit st1 (Event.loadData config.train_data_path))
            (Event.cudaCheck cuda)) Event.modelToCuda
         else
          St.emit (St.emit st1 (Event.loadData config.train_data_path))
            (Event.cudaCheck cuda)) from rfl] at h
      rw [hr] at h
      simp at h
    | ok st2 =>
      rw [hr] at h
      dsimp only at h
      simp only [Except.ok.injEq] at h
      subst h
      obtain ⟨seg, htr2, _, hev, hsv, hcc, hmc, htc, hfc, h0⟩ :=
        runEpochs_ok cuda td mS lv config.epoch 1 _ st2 hr
      refine ⟨de, seg, hde, ?_, hev, hsv, hcc, hmc, htc, hfc, h0⟩
      have htrmid : (if cuda = true then
          St.emit (St.emit (St.emit st1 (Event.loadData config.train_data_path))
            (Event.cudaCheck cuda)) Event.modelToCuda
         else
          St.emit (St.emit st1 (Event.loadData config.train_data_path))
            (Event.cudaCheck cuda)).trace =
          st1.trace ++ [Event.loadData config.train_data_path,
            Event.cudaCheck cuda] ++
          (if cuda then [Event.modelToCuda] else []) := by
        cases cuda <;> simp [St.emit]
      simp only [St.emit, htr2, htrmid, htr1]
      simp only [initSt]
      cases cuda <;> simp

/-- C1: the claim says a 1-batch epoch must not raise a division-by-zero
error in the logging-cadence check and the epoch completes normally.  The
source computes `index % int(len(train_data) / 2)` with divisor
`int(1 / 2) = 0`, so the run raises ZeroDivisionError on the very first
batch and the evaluator is never reached. -/
theorem C1_one_batch_logging_raises :
    errOf (main (demoCfg 1) demoFs [demoBatchA] false demoLoss demoStep 0) =
      some PyErr.zeroDivisionError ∧
    evalNums (stOf (main (demoCfg 1) demoFs [demoBatchA] false demoLoss
      demoStep 0)).trace = [] := ⟨rfl, rfl⟩

/-- C2: with `epoch = 0` the training loop body never executes, the
evaluator is never invoked, and exactly one checkpoint is still written. -/
theorem C2_zero_epoch_run (config : Config) (fs0 : List (String × FsEntry))
    (td : List Batch) (cuda : Bool) (lv : Nat → Nat → Rat) (mS : Nat → Nat)
    (im : Nat) (st : St) (hep : config.epoch = 0)
    (h : main config fs0 td cuda lv mS im = .ok st) :
    zeroGradCount st.trace = 0 ∧ evalNums st.trace = [] ∧
    saveEvents st.trace =
      [(pathJoin config.model_path "bert_ner_model.pth", st.modelState,
        config)] := by
  obtain ⟨de, seg, hde, htr, hev, hsv, hcc, hmc, htc, hfc, h0⟩ :=
    main_ok_decomp config fs0 td cuda lv mS im st h
  have hseg : seg = [] := h0 hep
  subst hseg
  rcases hde with hde | hde <;> subst hde <;> rw [htr] <;> cases cuda <;>
    exact ⟨rfl, rfl, rfl⟩

/-- Witness for C2 at a concrete zero-epoch run. -/
theorem C2_witness :
    zeroGradCount (stOf (main (demoCfg 0) demoFs [demoBatchA] false demoLoss
      demoStep 0)).trace = 0 ∧
    evalNums (stOf (main (demoCfg 0) demoFs [demoBatchA] false demoLoss
      demoStep 0)).trace = [] ∧
    saveEvents (stOf (main (demoCfg 0) demoFs [demoBatchA] false demoLoss
      demoStep 0)).trace =
      [(pathJoin (demoCfg 0).model_path "bert_ner_model.pth",
        (stOf (main (demoCfg 0) demoFs [demoBatchA] false demoLoss
          demoStep 0)).modelState, demoCfg 0)] :=
  C2_zero_epoch_run (demoCfg 0) demoFs [demoBatchA] false demoLoss demoStep 0
    (stOf (main (demoCfg 0) demoFs [demoBatchA] false demoLoss demoStep 0))
    rfl rfl

/-- C3: a completed run with `epoch = N ≥ 1` invokes the evaluator exactly
once per epoch, with the 1-indexed epoch numbers in increasing order
`1, 2, …, N` (`List.range' 1 N`). -/
theorem C3_eval_per_epoch (config : Config) (fs0 : List (String × FsEntry))
    (td : List Batch) (cuda : Bool) (lv : Nat → Nat → Rat) (mS : Nat → Nat)
    (im : Nat) (st : St) (_hN : 1 ≤ config.epoch)
    (h : main config fs0 td cuda lv mS im = .ok st) :
    evalNums st.trace = List.range' 1 config.epoch := by
  obtain ⟨de, seg, hde, htr, hev, hsv, hcc, hmc, htc, hfc, h0⟩ :=
    main_ok_decomp config fs0 td cuda lv mS im st h
  rcases hde with hde | hde <;> subst hde <;> rw [htr] <;> cases cuda <;>
    (simp only [evalNums_append, hev]; simp [evalNums])

/-- Witness for C3 at a concrete 2-epoch run on the accelerator. -/
theorem C3_witness :
    evalNums (stOf (main (demoCfg 2) demoFs [demoBatchA, demoBatchB] true
      demoLoss demoStep 0)).trace = List.range' 1 (demoCfg 2).epoch :=
  C3_eval_per_epoch (demoCfg 2) demoFs [demoBatchA, demoBatchB] true demoLoss
    demoStep 0
    (stOf (main (demoCfg 2) demoFs [demoBatchA, demoBatchB] true demoLoss
      demoStep 0))
    (by decide) rfl

/-- C4: for every completed epoch, the logged epoch-average loss is the
arithmetic mean of exactly the per-batch loss values recorded in that
epoch's own trace segment, in processing order; the `train_loss` list is
rebuilt from that segment alone, independent of earlier epochs. -/
theorem C4_epoch_mean_loss (cuda_flag : Bool) (td : List Batch)
    (mS : Nat → Nat) (lv : Nat → Nat → Rat) (e : Nat) (st st' : St)
    (h : runEpoch cuda_flag td mS lv e st = .ok st') :
    ∃ seg, st'.trace = st.trace ++ seg ∧
      epochLossLogs seg = [npMean (lossAppends seg)] ∧
      st'.trainLoss = lossAppends seg := by
  obtain ⟨seg, htr, _, _, _, _, _, _, _, hel, htl⟩ :=
    runEpoch_ok cuda_flag td mS lv e st st' h
  exact ⟨seg, htr, hel, htl⟩

/-- Witness for C4 at a concrete epoch with two batches. -/
theorem C4_witness :
    ∃ seg, (stOf (runEpoch false [demoBatchA, demoBatchB] demoStep demoLoss 1
        (initSt demoFs 0))).trace = (initSt demoFs 0).trace ++ seg ∧
      epochLossLogs seg = [npMean (lossAppends seg)] ∧
      (stOf (runEpoch false [demoBatchA, demoBatchB] demoStep demoLoss 1
        (initSt demoFs 0))).trainLoss = lossAppends seg :=
  C4_epoch_mean_loss false [demoBatchA, demoBatchB] demoStep demoLoss 1
    (initSt demoFs 0)
    (stOf (runEpoch false [demoBatchA, demoBatchB] demoStep demoLoss 1
      (initSt demoFs 0))) rfl

/-- C5: each batch body appends, in source order: gradient clear first, then
(in the accelerator case) batch relocation, then the forward pass, backward
pass, optimizer step and the loss append, optionally followed by the cadence
log line.  In particular the gradient clear precedes the forward pass. -/
theorem C5_batch_step_order (cuda_flag : Bool) (nB : Nat) (mS : Nat → Nat)
    (loss : Rat) (index : Nat) (bd : Batch) (st st' : St)
    (h : runBatch cuda_flag nB mS loss index bd st = .ok st') :
    ∃ i a l lp,
      (lp = ([] : List Event) ∨ lp = [Event.logBatchLoss loss]) ∧
      st'.trace = st.trace ++ [Event.zeroGrad] ++
        (if cuda_flag then [Event.toCuda] else []) ++
        [Event.forward i a l, Event.backward, Event.optStep,
         Event.appendLoss loss] ++ lp := by
  obtain ⟨i, a, l, lp, hlp, _, htr, _, _, _⟩ :=
    runBatch_shape cuda_flag nB mS loss index bd st st' h
  exact ⟨i, a, l, lp, hlp, htr⟩

/-- Witness for C5 at a concrete batch. -/
theorem C5_witness :
    ∃ i a l lp,
      (lp = ([] : List Event) ∨ lp = [Event.logBatchLoss (demoLoss 1 0)]) ∧
      (stOf (runBatch false 2 demoStep (demoLoss 1 0) 0 demoBatchA
        (initSt demoFs 0))).trace = (initSt demoFs 0).trace ++
        [Event.zeroGrad] ++ (if false then [Event.toCuda] else []) ++
        [Event.forward i a l, Event.backward, Event.optStep,
         Event.appendLoss (demoLoss 1 0)] ++ lp :=
  C5_batch_step_order false 2 demoStep (demoLoss 1 0) 0 demoBatchA
    (initSt demoFs 0)
    (stOf (runBatch false 2 demoStep (demoLoss 1 0) 0 demoBatchA
      (initSt demoFs 0))) rfl

/-- C6: a completed run writes exactly one checkpoint, as the last event
after all epochs, at the fixed path `<model_path>/bert_ner_model.pth`; the
checkpoint record pairs the model state held in memory at save time with the
input configuration, so loading it yields exactly those. -/
theorem C6_final_checkpoint (config : Config) (fs0 : List (String × FsEntry))
    (td : List Batch) (cuda : Bool) (lv : Nat → Nat → Rat) (mS : Nat → Nat)
    (im : Nat) (st : St)
    (h : main config fs0 td cuda lv mS im = .ok st) :
    ∃ pre, st.trace = pre ++
      [Event.save (pathJoin config.model_path "bert_ner_model.pth")
        st.modelState config] ∧
      saveEvents pre = [] := by
  obtain ⟨de, seg, hde, htr, hev, hsv, hcc, hmc, htc, hfc, h0⟩ :=
    main_ok_decomp config fs0 td cuda lv mS im st h
  refine ⟨de ++ [Event.loadData config.train_data_path,
    Event.cudaCheck cuda] ++ (if cuda then [Event.modelToCuda] else []) ++
    seg, htr, ?_⟩
  rcases hde with hde | hde <;> subst hde <;> cases cuda <;>
    (simp only [saveEvents_append, hsv]; simp [saveEvents])

/-- Witness for C6 at a concrete 1-epoch run with two batches. -/
theorem C6_witness :
    ∃ pre, (stOf (main (demoCfg 1) demoFs [demoBatchA, demoBatchB] false
      demoLoss demoStep 5)).trace = pre ++
      [Event.save (pathJoin (demoCfg 1).model_path "bert_ner_model.pth")
        (stOf (main (demoCfg 1) demoFs [demoBatchA, demoBatchB] false
          demoLoss demoStep 5)).modelState (demoCfg 1)] ∧
      saveEvents pre = [] :=
  C6_final_checkpoint (demoCfg 1) demoFs [demoBatchA, demoBatchB] false
    demoLoss demoStep 5
    (stOf (main (demoCfg 1) demoFs [demoBatchA, demoBatchB] false demoLoss
      demoStep 5)) rfl

/-- C7: the directory-creation step is idempotent: when the model directory
already exists nothing happens and no error is raised, and when the path is
absent the directory is created. -/
theorem C7_mkdir_idempotent (p : String) (st : St) :
    (fsGet p st.fs = some FsEntry.dir → ensureDir p st = .ok st) ∧
    (fsGet p st.fs = none → ensureDir p st =
      .ok { st with fs := (p, FsEntry.dir) :: st.fs,
                    trace := st.trace ++ [Event.mkdirE p] }) := by
  constructor
  · intro hdir
    simp [ensureDir, hdir]
  · intro habs
    simp [ensureDir, habs]

/-- Witness for C7: an existing directory is kept, an absent one created. -/
theorem C7_witness :
    ensureDir "model_output" (initSt demoFs 3) = .ok (initSt demoFs 3) ∧
    ensureDir "model_output" (initSt [] 3) =
      .ok { initSt [] 3 with
            fs := ("model_output", FsEntry.dir) :: (initSt [] 3).fs,
            trace :=
              (initSt [] 3).trace ++ [Event.mkdirE "model_output"] } :=
  ⟨(C7_mkdir_idempotent "model_output" (initSt demoFs 3)).1 rfl,
   (C7_mkdir_idempotent "model_output" (initSt [] 3)).2 rfl⟩

/-- C8: the accelerator branch is decided by a single availability check per
run; when the accelerator is available the model is relocated exactly once,
each of the `epoch * len(train_data)` batches is relocated, and every
forward pass receives accelerator-resident tensors; otherwise nothing is
ever relocated. -/
theorem C8_cuda_branch_once (config : Config) (fs0 : List (String × FsEntry))
    (td : List Batch) (cuda : Bool) (lv : Nat → Nat → Rat) (mS : Nat → Nat)
    (im : Nat) (st : St)
    (h : main config fs0 td cuda lv mS im = .ok st) :
    cudaCheckCount st.trace = 1 ∧
    (cuda = true → modelToCudaCount st.trace = 1 ∧
      toCudaCount st.trace = config.epoch * td.length ∧
      forwardsOnCuda st.trace = true) ∧
    (cuda = false → modelToCudaCount st.trace = 0 ∧
      toCudaCount st.trace = 0) := by
  obtain ⟨de, seg, hde, htr, hev, hsv, hcc, hmc, htc, hfc, h0⟩ :=
    main_ok_decomp config fs0 td cuda lv mS im st h
  rcases hde with hde | hde <;> subst hde <;> rw [htr] <;> cases cuda <;>
    refine ⟨?_, fun hcu => ?_, fun hcu => ?_⟩ <;>
    first
    | exact absurd hcu (by decide)
    | (simp only [cudaCheckCount_append, modelToCudaCount_append,
        toCudaCount_append, forwardsOnCuda_append, hcc, hmc, htc, hfc]
       simp [cudaCheckCount, modelToCudaCount, toCudaCount, forwardsOnCuda])

/-- Witness for C8 at a concrete accelerator run. -/
theorem C8_witness :
    cudaCheckCount (stOf (main (demoCfg 2) demoFs [demoBatchA, demoBatchB]
      true demoLoss demoStep 0)).trace = 1 ∧
    (true = true → modelToCudaCount (stOf (main (demoCfg 2) demoFs
        [demoBatchA, demoBatchB] true demoLoss demoStep 0)).trace = 1 ∧
      toCudaCount (stOf (main (demoCfg 2) demoFs [demoBatchA, demoBatchB]
        true demoLoss demoStep 0)).trace =
        (demoCfg 2).epoch * ([demoBatchA, demoBatchB] : List Batch).length ∧
      forwardsOnCuda (stOf (main (demoCfg 2) demoFs [demoBatchA, demoBatchB]
        true demoLoss demoStep 0)).trace = true) ∧
    (true = false → modelToCudaCount (stOf (main (demoCfg 2) demoFs
        [demoBatchA, demoBatchB] true demoLoss demoStep 0)).trace = 0 ∧
      toCudaCount (stOf (main (demoCfg 2) demoFs [demoBatchA, demoBatchB]
        true demoLoss demoStep 0)).trace = 0) :=
  C8_cuda_branch_once (demoCfg 2) demoFs [demoBatchA, demoBatchB] true
    demoLoss demoStep 0
    (stOf (main (demoCfg 2) demoFs [demoBatchA, demoBatchB] true demoLoss
      demoStep 0)) rfl

/-- C9: when the accelerator branch is taken the relocated batch mapping
holds exactly the keys `input_ids`, `attention_mask`, `labels` — any extra
field the loader yielded is dropped — and when it is not taken the batch
passes through unchanged. -/
theorem C9_relocation_keys (bd bd' : Batch) (st st' : St)
    (h : relocateBatch true bd st = .ok (bd', st')) :
    bd'.map Prod.fst = ["input_ids", "attention_mask", "labels"] ∧
    ∀ (b2 : Batch) (s2 : St), relocateBatch false b2 s2 = .ok (b2, s2) := by
  obtain ⟨_, _, _, _, hcu, _⟩ := relocateBatch_ok true bd bd' st st' h
  obtain ⟨i, a, l, hbd⟩ := hcu rfl
  subst hbd
  exact ⟨rfl, fun b2 s2 => rfl⟩

/-- Witness for C9 at a batch with an extra `token_type_ids` field. -/
theorem C9_witness :
    ([("input_ids", (demoT 6).cuda), ("attention_mask", (demoT 7).cuda),
      ("labels", (demoT 8).cuda)] : Batch).map Prod.fst =
      ["input_ids", "attention_mask", "labels"] ∧
    ∀ (b2 : Batch) (s2 : St), relocateBatch false b2 s2 = .ok (b2, s2) :=
  C9_relocation_keys demoBatchX
    [("input_ids", (demoT 6).cuda), ("attention_mask", (demoT 7).cuda),
     ("labels", (demoT 8).cuda)]
    (initSt [] 7) (St.emit (initSt [] 7) Event.toCuda) rfl

/-- C10: when something that is not a directory sits at `model_path`, the
directory-creation step raises and the run aborts immediately: the state
returned with the error has an empty trace, so no data load, no training
step and no checkpoint write happened. -/
theorem C10_model_path_file_aborts (config : Config)
    (fs0 : List (String × FsEntry)) (td : List Batch) (cuda : Bool)
    (lv : Nat → Nat → Rat) (mS : Nat → Nat) (im : Nat)
    (h : fsGet config.model_path fs0 = some FsEntry.file) :
    main config fs0 td cuda lv mS im =
      .error (PyErr.fileExistsError, initSt fs0 im) ∧
    (initSt fs0 im).trace = [] := by
  refine ⟨?_, rfl⟩
  have h1 : ensureDir config.model_path (initSt fs0 im) =
      .error (PyErr.fileExistsError, initSt fs0 im) := by
    simp [ensureDir, initSt, h]
  simp only [main]
  rw [h1]

/-- Witness for C10 at a concrete filesystem with a file at the model path. -/
theorem C10_witness :
    main (demoCfg 1) [("model_output", FsEntry.file)] [demoBatchA] false
      demoLoss demoStep 0 =
      .error (PyErr.fileExistsError,
        initSt [("model_output", FsEntry.file)] 0) ∧
    (initSt [("model_output", FsEntry.file)] 0).trace = [] :=
  C10_model_path_file_aborts (demoCfg 1) [("model_output", FsEntry.file)]
    [demoBatchA] false demoLoss demoStep 0 rfl

end BadouNER
